import Mathlib

/-!
Shallow embedding of `src/server/cache-manager.ts` from the
`generative-ai-js` repository, together with theorems checking the
natural-language specification of the cache manager against the code.

The embedding mirrors the TypeScript source:
* JavaScript objects with optional fields become structures with `Option`
  fields (a `none` field is an absent key).
* JavaScript truthiness tests (`if (x.ttlSeconds)`, `if (x.expireTime)`,
  `if (!x.model)`) become explicit truthiness predicates: a number is
  falsy exactly when it is `0`, a string exactly when it is empty, and an
  absent value is falsy.
* `throw` of an SDK error becomes `Except.error`; a method that reaches
  `makeServerRequest` returns `Except.ok` carrying the request it would
  issue (URL together with serialized body).
* The URL object (`CachedContentUrl` with `appendPath` / `appendParam`,
  defined in `server/request.ts`, which is not part of the sources here)
  is modelled from the spec as a record of appended path segments and
  query parameters over the `cachedContents` collection.
-/

/-- The two SDK error classes thrown by `cache-manager.ts`:
`GoogleGenerativeAIRequestInputError` for local input validation and
`GoogleGenerativeAIError` as the generic client error. -/
inductive GError where
  | requestInputError (msg : String)
  | genericError (msg : String)
deriving DecidableEq, Repr

/-- Modelled from the spec: the five REST operations of the cache manager
(create/list/get/update/delete); the `RpcTask` enum of `server/constants.ts`
is not among the sources. -/
inductive RpcTask where
  | CREATE
  | LIST
  | GET
  | UPDATE
  | DELETE
deriving DecidableEq, Repr

/-- The fields of a cached-content payload that `cache-manager.ts`
manipulates. `model`, `ttlSeconds`, `expireTime` and `ttl` are the fields
read or written by `create` and `update`; `contents` stands for the
remaining content fields, which are passed through untouched.
A `none` field is a key that is absent from the JavaScript object. -/
structure CachedContentParams where
  model : Option String := none
  contents : List String := []
  ttlSeconds : Option Nat := none
  expireTime : Option String := none
  ttl : Option String := none
deriving DecidableEq, Repr

/-- JavaScript truthiness of an optional number field: `undefined`, `0`
(and `NaN`, not representable here) are falsy. -/
def truthyNat : Option Nat → Bool
  | some n => n != 0
  | none => false

/-- JavaScript truthiness of an optional string field: `undefined` and the
empty string are falsy. -/
def truthyStr : Option String → Bool
  | some s => s != ""
  | none => false

/-- Modelled from the spec: the request URL built by `CachedContentUrl`
(`server/request.ts`, not among the sources). Per the spec the cache
endpoints live under the `cachedContents` resource collection; the model
keeps the task, the path segments appended with `appendPath` and the
query parameters appended with `appendParam`. -/
structure ServerUrl where
  task : RpcTask
  pathSegs : List String := []
  params : List (String × String) := []
deriving DecidableEq, Repr

/-- Modelled from the spec: `url.appendPath(seg)` adds one path segment. -/
def appendPath (u : ServerUrl) (seg : String) : ServerUrl :=
  { u with pathSegs := u.pathSegs ++ [seg] }

/-- Modelled from the spec: `url.appendParam(k, v)` adds one query
parameter. -/
def appendParam (u : ServerUrl) (k v : String) : ServerUrl :=
  { u with params := u.params ++ [(k, v)] }

/-- Modelled from the spec: the path of the request URL, built from the
`cachedContents` collection root and the appended segments. -/
def urlPath (u : ServerUrl) : String :=
  String.intercalate "/" ("cachedContents" :: u.pathSegs)

/-- The observable outcome of a cache-manager method that reaches
`makeServerRequest`: the URL it would contact and the JSON body it would
send (`none` when no body is sent, as for `get` and `delete`). -/
structure ServerRequest where
  url : ServerUrl
  body : Option CachedContentParams := none
deriving DecidableEq, Repr

/-- The separator string used by `parseCacheName`. -/
def cachedContentsSep : List Char := "cachedContents/".data

/-- The second element of a JavaScript `split`: the characters of `s` up
to (excluding) the first occurrence of `sep`, or all of `s` if `sep` does
not occur. This is what `name.split(sep)[1]` evaluates to once the
leading occurrence of `sep` at position 0 has been consumed. -/
def takeUntilSep (sep : List Char) : List Char → List Char
  | [] => []
  | c :: cs => if sep.isPrefixOf (c :: cs) then [] else c :: takeUntilSep sep cs

/-- Whether `sep` occurs as a contiguous sublist of `s`. -/
def hasOccur (sep : List Char) : List Char → Bool
  | [] => sep.isEmpty
  | c :: cs => sep.isPrefixOf (c :: cs) || hasOccur sep cs

/-- Embedding of `parseCacheName` (cache-manager.ts lines 124-129):
an empty name throws the generic `GoogleGenerativeAIError`; a name
starting with `cachedContents/` is replaced by
`name.split("cachedContents/")[1]`; any other name passes through. -/
def parseCacheName (name : String) : Except GError String :=
  if name = "" then
    Except.error (GError.genericError
      "Invalid cache name. Must be 'cachedContents/name' or 'name'.")
  else if cachedContentsSep.isPrefixOf name.data then
    Except.ok (String.mk (takeUntilSep cachedContentsSep
      (name.data.drop cachedContentsSep.length)))
  else
    Except.ok name

/-- Embedding of `camelToSnake` (cache-manager.ts lines 134-136):
`str.replace(/[A-Z]/g, (letter) => ` an underscore followed by the
lowercased letter `)`. The regex class `[A-Z]` is the ASCII uppercase
letters. -/
def camelToSnake (str : String) : String :=
  String.mk ((str.data.map fun c =>
    if 'A' ≤ c ∧ c ≤ 'Z' then ['_', c.toLower] else [c]).flatten)

namespace GoogleAICacheManager

/-- The tail of `create` after the TTL handling: the `model` presence
check, the `models/` prefixing when the model name has no `/`, and the
final `makeServerRequest` call with the serialized body. -/
def createRest (newCachedContent : CachedContentParams) :
    Except GError ServerRequest :=
  if !(truthyStr newCachedContent.model) then
    Except.error (GError.requestInputError
      "Cached content requires a `model` field.")
  else
    let finalContent :=
      if ((newCachedContent.model.getD "").data.contains '/') then
        newCachedContent
      else
        { newCachedContent with
            model := some ("models/" ++ newCachedContent.model.getD "") }
    Except.ok { url := { task := RpcTask.CREATE }, body := some finalContent }

/-- Embedding of `GoogleAICacheManager.create` (cache-manager.ts lines
43-70). It copies the options, and when `ttlSeconds` is truthy it throws
if `expireTime` is also truthy, otherwise sets `ttl` to the string
`<n>s` and deletes `ttlSeconds`; then it validates and normalizes the
model name and issues the CREATE request. -/
def create (createOptions : CachedContentParams) :
    Except GError ServerRequest :=
  let newCachedContent := createOptions
  if truthyNat createOptions.ttlSeconds then
    if truthyStr createOptions.expireTime then
      Except.error (GError.requestInputError
        "Cannot specify both `ttlSeconds` and `expireTime`. Choose one.")
    else
      createRest { newCachedContent with
        ttl := some (toString (createOptions.ttlSeconds.getD 0) ++ "s"),
        ttlSeconds := none }
  else
    createRest newCachedContent

/-- Embedding of `GoogleAICacheManager.get` (cache-manager.ts lines
86-90): parse the cache name (propagating its error) and issue a GET
request with the parsed name appended to the path. -/
def get (name : String) : Except GError ServerRequest :=
  match parseCacheName name with
  | Except.error e => Except.error e
  | Except.ok seg =>
    Except.ok { url := appendPath { task := RpcTask.GET } seg }

/-- The `updateParams` argument of `update`: the partial cached-content
body and the optional list of update-mask field names. -/
structure CachedContentUpdateParams where
  cachedContent : CachedContentParams
  updateMask : Option (List String) := none
deriving DecidableEq, Repr

/-- Embedding of `GoogleAICacheManager.update` (cache-manager.ts lines
95-109): parse the cache name into the path, copy the cached content,
convert a truthy `ttlSeconds` to the `ttl` string and delete it, append
the snake-cased comma-joined `update_mask` query parameter when an
update mask is supplied, and issue the UPDATE request. -/
def update (name : String) (updateParams : CachedContentUpdateParams) :
    Except GError ServerRequest :=
  match parseCacheName name with
  | Except.error e => Except.error e
  | Except.ok seg =>
    let url := appendPath { task := RpcTask.UPDATE } seg
    let formattedCachedContent := updateParams.cachedContent
    let formattedCachedContent :=
      if truthyNat updateParams.cachedContent.ttlSeconds then
        { formattedCachedContent with
            ttl := some
              (toString (updateParams.cachedContent.ttlSeconds.getD 0) ++ "s"),
            ttlSeconds := none }
      else formattedCachedContent
    let url :=
      match updateParams.updateMask with
      | some mask =>
        appendParam url "update_mask"
          (String.intercalate "," (mask.map camelToSnake))
      | none => url
    Except.ok { url := url, body := some formattedCachedContent }

/-- Embedding of `GoogleAICacheManager.delete` (cache-manager.ts lines
114-118): parse the cache name and issue a DELETE request with the
parsed name appended to the path. -/
def delete (name : String) : Except GError ServerRequest :=
  match parseCacheName name with
  | Except.error e => Except.error e
  | Except.ok seg =>
    Except.ok { url := appendPath { task := RpcTask.DELETE } seg }

end GoogleAICacheManager

instance instDecidableEqExcept {ε α : Type} [DecidableEq ε] [DecidableEq α] :
    DecidableEq (Except ε α) := fun a b =>
  match a, b with
  | Except.ok x, Except.ok y =>
    if h : x = y then isTrue (by rw [h]) else isFalse (by simp [h])
  | Except.error x, Except.error y =>
    if h : x = y then isTrue (by rw [h]) else isFalse (by simp [h])
  | Except.ok _, Except.error _ => isFalse (by simp)
  | Except.error _, Except.ok _ => isFalse (by simp)

/-!
A heap model, used to state the frame property of `create` and `update`:
JavaScript objects live at addresses, an address is a list index, and
`const copy = { ...obj }` allocates a fresh address holding a shallow
copy. The method bodies below replay the source with the caller's object
held at an address, so that "the caller's argument is never mutated" is a
statement about writes to the heap rather than a vacuous fact about pure
values.
-/

/-- A heap of JavaScript objects: the address of an object is its index. -/
abbrev Heap := List CachedContentParams

/-- Write the object at address `i` (a field assignment or `delete` on
the object stored there). -/
def heapSet (h : Heap) (i : Nat) (v : CachedContentParams) : Heap :=
  h.set i v

/-- The tail of `create` on the heap: the model presence check and the
`models/` prefixing, the latter a field assignment to the fresh object
at `newRef`. -/
def createTail (h : Heap) (newRef : Nat) : Heap × Except GError ServerRequest :=
  match h[newRef]? with
  | none => (h, Except.error (GError.genericError "dangling reference"))
  | some ncc =>
    if !(truthyStr ncc.model) then
      (h, Except.error (GError.requestInputError
        "Cached content requires a `model` field."))
    else
      let h2 :=
        if ((ncc.model.getD "").data.contains '/') then h
        else heapSet h newRef
          { ncc with model := some ("models/" ++ ncc.model.getD "") }
      match h2[newRef]? with
      | none => (h2, Except.error (GError.genericError "dangling reference"))
      | some finalContent =>
        (h2, Except.ok { url := { task := RpcTask.CREATE },
                         body := some finalContent })

/-- `GoogleAICacheManager.create` on the heap: the caller's options live
at `r`; `const newCachedContent = { ...createOptions }` allocates the
shallow copy at the fresh address `h.length`, and the `ttl` assignment
and `delete` of `ttlSeconds` are writes to that fresh address. -/
def createOnHeap (h : Heap) (r : Nat) : Heap × Except GError ServerRequest :=
  match h[r]? with
  | none => (h, Except.error (GError.genericError "dangling reference"))
  | some createOptions =>
    let newRef := h.length
    let h1 := h ++ [createOptions]
    if truthyNat createOptions.ttlSeconds then
      if truthyStr createOptions.expireTime then
        (h1, Except.error (GError.requestInputError
          "Cannot specify both `ttlSeconds` and `expireTime`. Choose one."))
      else
        let v1 := { createOptions with
          ttl := some (toString (createOptions.ttlSeconds.getD 0) ++ "s") }
        let h2 := heapSet h1 newRef v1
        let h3 := heapSet h2 newRef { v1 with ttlSeconds := none }
        createTail h3 newRef
    else
      createTail h1 newRef

/-- `GoogleAICacheManager.update` on the heap: the caller's
`updateParams.cachedContent` lives at `r`;
`const formattedCachedContent = { ...updateParams.cachedContent }`
allocates the shallow copy at the fresh address `h.length`, and the
`ttl` assignment and `delete` of `ttlSeconds` are writes to that fresh
address. -/
def updateOnHeap (h : Heap) (name : String) (r : Nat)
    (updateMask : Option (List String)) : Heap × Except GError ServerRequest :=
  match parseCacheName name with
  | Except.error e => (h, Except.error e)
  | Except.ok seg =>
    match h[r]? with
    | none => (h, Except.error (GError.genericError "dangling reference"))
    | some cc =>
      let newRef := h.length
      let h1 := h ++ [cc]
      let v1 := { cc with
        ttl := some (toString (cc.ttlSeconds.getD 0) ++ "s") }
      let v2 := { v1 with ttlSeconds := none }
      let h2 :=
        if truthyNat cc.ttlSeconds then heapSet (heapSet h1 newRef v1) newRef v2
        else h1
      let formatted := if truthyNat cc.ttlSeconds then v2 else cc
      let url0 := appendPath { task := RpcTask.UPDATE } seg
      let url1 :=
        match updateMask with
        | some mask =>
          appendParam url0 "update_mask"
            (String.intercalate "," (mask.map camelToSnake))
        | none => url0
      (h2, Except.ok { url := url1, body := some formatted })

/-!
Helper lemmas shared by the claim theorems.
-/

/-- When the separator does not occur in `s`, the JavaScript split keeps
all of `s` in the element. -/
theorem takeUntilSep_eq_self (sep : List Char) (s : List Char)
    (h : hasOccur sep s = false) : takeUntilSep sep s = s := by
  induction s with
  | nil => rfl
  | cons c cs ih =>
    unfold hasOccur at h
    rw [Bool.or_eq_false_iff] at h
    unfold takeUntilSep
    rw [if_neg (by simp [h.1]), ih h.2]

/-- `parseCacheName` only throws on the empty name. -/
theorem parseCacheName_ok_of_ne_empty (name : String) (h : name ≠ "") :
    ∃ seg, parseCacheName name = Except.ok seg := by
  unfold parseCacheName
  rw [if_neg h]
  by_cases hp : cachedContentsSep.isPrefixOf name.data
  · exact ⟨_, by rw [if_pos hp]⟩
  · exact ⟨name, by rw [if_neg hp]⟩

/-- `createRest` throws the model-validation error when the model key is
absent. -/
theorem createRest_no_model (ncc : CachedContentParams) (h : ncc.model = none) :
    GoogleAICacheManager.createRest ncc = Except.error
      (GError.requestInputError "Cached content requires a `model` field.") := by
  unfold GoogleAICacheManager.createRest
  rw [h]
  rfl

/-- C6: create with model gemini-1.5-flash, ttlSeconds 300 and any
contents sends a body whose model is models/gemini-1.5-flash, whose ttl
is the string 300s, and which has no ttlSeconds key. -/
theorem create_flash_ttl300_body (cs : List String) :
    GoogleAICacheManager.create
      { model := some "gemini-1.5-flash", ttlSeconds := some 300,
        contents := cs } =
    Except.ok
      { url := { task := RpcTask.CREATE },
        body := some { model := some "models/gemini-1.5-flash",
                       contents := cs, ttlSeconds := none,
                       expireTime := none, ttl := some "300s" } } := by
  unfold GoogleAICacheManager.create GoogleAICacheManager.createRest
  simp only [truthyNat, truthyStr]
  rfl

/-- C7: get on the prefixed name cachedContents/abc123 and get on the
bare name abc123 produce the same request, a GET whose URL path ends in
/abc123. -/
theorem get_prefixed_and_bare_same_path :
    GoogleAICacheManager.get "cachedContents/abc123" =
      GoogleAICacheManager.get "abc123" ∧
    ∃ req, GoogleAICacheManager.get "abc123" = Except.ok req ∧
      req.url.task = RpcTask.GET ∧
      ∃ p, urlPath req.url = p ++ "/abc123" := by
  refine ⟨by decide,
    { url := { task := RpcTask.GET, pathSegs := ["abc123"] } },
    by decide, rfl, "cachedContents", by decide⟩

/-- C1 counterexample: with both fields set, but ttlSeconds set to 0
(falsy in JavaScript), create throws nothing and issues the request,
with both ttlSeconds and expireTime still in the body. -/
theorem create_ttl_zero_expire_set_no_error :
    GoogleAICacheManager.create
      { model := some "m", ttlSeconds := some 0,
        expireTime := some "2024-12-31T12:00:00Z" } =
    Except.ok
      { url := { task := RpcTask.CREATE },
        body := some { model := some "models/m", ttlSeconds := some 0,
                       expireTime := some "2024-12-31T12:00:00Z" } } := by decide

/-- C1 (amended): when ttlSeconds is set to a nonzero value and
expireTime to a nonempty string, create throws the
GoogleGenerativeAIRequestInputError before any request is issued. -/
theorem create_truthy_ttl_and_expire_throws (opts : CachedContentParams)
    (ht : truthyNat opts.ttlSeconds = true)
    (he : truthyStr opts.expireTime = true) :
    GoogleAICacheManager.create opts = Except.error
      (GError.requestInputError
        "Cannot specify both `ttlSeconds` and `expireTime`. Choose one.") := by
  unfold GoogleAICacheManager.create
  rw [if_pos ht, if_pos he]

/-- Witness for C1: the amended theorem applied at ttlSeconds 300 and a
concrete expireTime. -/
theorem create_truthy_ttl_and_expire_throws_witness :
    truthyNat (some 300) = true ∧
    truthyStr (some "2024-12-31T12:00:00Z") = true ∧
    GoogleAICacheManager.create
      { ttlSeconds := some 300, expireTime := some "2024-12-31T12:00:00Z" } =
      Except.error (GError.requestInputError
        "Cannot specify both `ttlSeconds` and `expireTime`. Choose one.") :=
  ⟨by decide, by decide,
    create_truthy_ttl_and_expire_throws
      { ttlSeconds := some 300, expireTime := some "2024-12-31T12:00:00Z" }
      (by decide) (by decide)⟩

/-- C5: when the model key is absent, create throws a
GoogleGenerativeAIRequestInputError. -/
theorem create_missing_model_throws (opts : CachedContentParams)
    (h : opts.model = none) :
    ∃ msg, GoogleAICacheManager.create opts =
      Except.error (GError.requestInputError msg) := by
  by_cases ht : truthyNat opts.ttlSeconds
  · by_cases he : truthyStr opts.expireTime
    · exact ⟨_, by unfold GoogleAICacheManager.create; rw [if_pos ht, if_pos he]⟩
    · refine ⟨"Cached content requires a `model` field.", ?_⟩
      unfold GoogleAICacheManager.create
      rw [if_pos ht, if_neg he]
      exact createRest_no_model _ h
  · refine ⟨"Cached content requires a `model` field.", ?_⟩
    unfold GoogleAICacheManager.create
    rw [if_neg ht]
    exact createRest_no_model _ h

/-- Witness for C5: the theorem applied to the options object with every
key absent. -/
theorem create_missing_model_throws_witness :
    ({} : CachedContentParams).model = none ∧
    ∃ msg, GoogleAICacheManager.create {} =
      Except.error (GError.requestInputError msg) :=
  ⟨rfl, create_missing_model_throws {} rfl⟩

/-- C8: when updateParams has no updateMask, no update_mask query
parameter is appended to the request URL. -/
theorem update_no_mask_omits_param (name : String)
    (ps : GoogleAICacheManager.CachedContentUpdateParams) (req : ServerRequest)
    (hm : ps.updateMask = none)
    (hok : GoogleAICacheManager.update name ps = Except.ok req) :
    ∀ v, ("update_mask", v) ∉ req.url.params := by
  unfold GoogleAICacheManager.update at hok
  cases hseg : parseCacheName name with
  | error e => rw [hseg] at hok; exact absurd hok (by simp)
  | ok seg =>
    rw [hseg, hm] at hok
    rw [Except.ok.injEq] at hok
    subst hok
    intro v
    simp [appendPath]

/-- Witness for C8: the theorem applied to an update of cache abc with
no update mask. -/
theorem update_no_mask_omits_param_witness :
    ({ cachedContent := {} } :
        GoogleAICacheManager.CachedContentUpdateParams).updateMask = none ∧
    GoogleAICacheManager.update "abc" { cachedContent := {} } = Except.ok
      { url := { task := RpcTask.UPDATE, pathSegs := ["abc"] },
        body := some {} } ∧
    ∀ v, ("update_mask", v) ∉
      ({ url := { task := RpcTask.UPDATE, pathSegs := ["abc"] },
         body := some {} } : ServerRequest).url.params :=
  ⟨rfl, by decide,
    update_no_mask_omits_param "abc" { cachedContent := {} } _ rfl (by decide)⟩

/-- C4: when an update mask is supplied, the update_mask query parameter
is the comma-join of the snake-cased field names, and camelToSnake
rewrites each ASCII uppercase letter to an underscore plus its lowercase
form, as in expireTime to expire_time. -/
theorem update_mask_snake_joined (name : String)
    (ps : GoogleAICacheManager.CachedContentUpdateParams)
    (mask : List String) (req : ServerRequest)
    (hm : ps.updateMask = some mask)
    (hok : GoogleAICacheManager.update name ps = Except.ok req) :
    req.url.params =
      [("update_mask", String.intercalate "," (mask.map camelToSnake))] ∧
    camelToSnake "expireTime" = "expire_time" := by
  refine ⟨?_, by decide⟩
  unfold GoogleAICacheManager.update at hok
  cases hseg : parseCacheName name with
  | error e => rw [hseg] at hok; exact absurd hok (by simp)
  | ok seg =>
    rw [hseg, hm] at hok
    rw [Except.ok.injEq] at hok
    subst hok
    simp [appendParam, appendPath]

/-- Witness for C4: the theorem applied to an update of cache abc with
mask [expireTime, ttlSeconds]. -/
theorem update_mask_snake_joined_witness :
    ({ cachedContent := {}, updateMask := some ["expireTime", "ttlSeconds"] } :
        GoogleAICacheManager.CachedContentUpdateParams).updateMask =
      some ["expireTime", "ttlSeconds"] ∧
    GoogleAICacheManager.update "abc"
      { cachedContent := {}, updateMask := some ["expireTime", "ttlSeconds"] } =
      Except.ok
        { url := { task := RpcTask.UPDATE, pathSegs := ["abc"],
                   params := [("update_mask", "expire_time,ttl_seconds")] },
          body := some {} } ∧
    ({ url := { task := RpcTask.UPDATE, pathSegs := ["abc"],
                params := [("update_mask", "expire_time,ttl_seconds")] },
       body := some {} } : ServerRequest).url.params =
      [("update_mask", String.intercalate ","
        (["expireTime", "ttlSeconds"].map camelToSnake))] ∧
    camelToSnake "expireTime" = "expire_time" :=
  ⟨rfl, by decide,
    update_mask_snake_joined "abc"
      { cachedContent := {}, updateMask := some ["expireTime", "ttlSeconds"] }
      ["expireTime", "ttlSeconds"] _ rfl (by decide)⟩

/-- The model-field behavior of `createRest`: an outgoing body keeps a
model containing a slash unchanged and prefixes models/ otherwise. -/
theorem createRest_model_normalization (ncc : CachedContentParams)
    (m : String) (req : ServerRequest) (body : CachedContentParams)
    (hm : ncc.model = some m)
    (hok : GoogleAICacheManager.createRest ncc = Except.ok req)
    (hb : req.body = some body) :
    body.model = some (if m.data.contains '/' then m else "models/" ++ m) := by
  unfold GoogleAICacheManager.createRest at hok
  rw [hm] at hok
  by_cases hm0 : m = ""
  · subst hm0; simp [truthyStr] at hok
  · have htr : truthyStr (some m) = true := by simp [truthyStr, hm0]
    rw [htr] at hok
    simp only [Bool.not_true, Bool.false_eq_true, if_false] at hok
    rw [Except.ok.injEq] at hok
    subst hok
    simp only [Option.getD_some] at hb ⊢
    rw [Option.some.injEq] at hb
    subst hb
    by_cases hc : m.data.contains '/'
    · rw [if_pos hc, if_pos hc, hm]
    · rw [if_neg hc, if_neg hc]

/-- C3: a model identifier without a slash goes out as
models/identifier; one containing a slash goes out unchanged. -/
theorem create_model_slash_normalization (opts : CachedContentParams)
    (m : String) (req : ServerRequest) (body : CachedContentParams)
    (hm : opts.model = some m)
    (hok : GoogleAICacheManager.create opts = Except.ok req)
    (hb : req.body = some body) :
    body.model = some (if m.data.contains '/' then m else "models/" ++ m) := by
  unfold GoogleAICacheManager.create at hok
  by_cases ht : truthyNat opts.ttlSeconds
  · by_cases he : truthyStr opts.expireTime
    · rw [if_pos ht, if_pos he] at hok; exact absurd hok (by simp)
    · rw [if_pos ht, if_neg he] at hok
      refine createRest_model_normalization _ m req body ?_ hok hb
      exact hm
  · rw [if_neg ht] at hok
    refine createRest_model_normalization _ m req body ?_ hok hb
    exact hm

/-- Witness for C3: the theorem applied to the bare identifier gemini,
which goes out as models/gemini. -/
theorem create_model_slash_normalization_witness :
    ({ model := some "gemini" } : CachedContentParams).model = some "gemini" ∧
    GoogleAICacheManager.create { model := some "gemini" } = Except.ok
      { url := { task := RpcTask.CREATE },
        body := some { model := some "models/gemini" } } ∧
    ({ url := { task := RpcTask.CREATE },
       body := some { model := some "models/gemini" } } :
         ServerRequest).body = some { model := some "models/gemini" } ∧
    ({ model := some "models/gemini" } : CachedContentParams).model =
      some (if "gemini".data.contains '/' then "gemini"
            else "models/" ++ "gemini") :=
  ⟨rfl, by decide, rfl,
    create_model_slash_normalization { model := some "gemini" } "gemini"
      { url := { task := RpcTask.CREATE },
        body := some { model := some "models/gemini" } }
      { model := some "models/gemini" } rfl (by decide) rfl⟩

/-- C10 counterexample: with ttlSeconds set to 0 (falsy in JavaScript)
alongside expireTime, update leaves ttlSeconds in the outgoing body and
adds no ttl field, rather than converting and removing it. -/
theorem update_ttl_zero_keeps_ttl_seconds :
    GoogleAICacheManager.update "abc"
      { cachedContent := { ttlSeconds := some 0,
                           expireTime := some "2024-12-31T12:00:00Z" } } =
    Except.ok
      { url := { task := RpcTask.UPDATE, pathSegs := ["abc"] },
        body := some { ttlSeconds := some 0,
                       expireTime := some "2024-12-31T12:00:00Z" } } := by
  decide

/-- C10 (amended): with a nonzero ttlSeconds and any expireTime in
cachedContent, update raises no error, converts ttlSeconds to the ttl
string, removes ttlSeconds and leaves expireTime in the body. -/
theorem update_truthy_ttl_with_expire_no_validation (name : String)
    (ps : GoogleAICacheManager.CachedContentUpdateParams) (n : Nat)
    (e : String) (hname : name ≠ "")
    (hn : ps.cachedContent.ttlSeconds = some n) (hnz : n ≠ 0)
    (he : ps.cachedContent.expireTime = some e) :
    ∃ req body, GoogleAICacheManager.update name ps = Except.ok req ∧
      req.body = some body ∧ body.ttl = some (toString n ++ "s") ∧
      body.ttlSeconds = none ∧ body.expireTime = some e := by
  obtain ⟨seg, hseg⟩ := parseCacheName_ok_of_ne_empty name hname
  have ht : truthyNat ps.cachedContent.ttlSeconds = true := by
    rw [hn]; simp [truthyNat, hnz]
  unfold GoogleAICacheManager.update
  rw [hseg]
  dsimp only
  rw [if_pos ht]
  cases hmk : ps.updateMask with
  | some mask =>
    exact ⟨_, _, rfl, rfl, by simp only [hn, Option.getD_some], rfl, he⟩
  | none =>
    exact ⟨_, _, rfl, rfl, by simp only [hn, Option.getD_some], rfl, he⟩

/-- C2 counterexample: JavaScript split, not prefix stripping. For the
name cachedContents/cachedContents/x, of the form cachedContents/ plus
the id cachedContents/x, the path segment is the empty string, not the
id. -/
theorem parseCacheName_split_drops_inner_sep :
    parseCacheName ("cachedContents/" ++ "cachedContents/x") = Except.ok "" ∧
    ("cachedContents/x" : String) ≠ "" := ⟨by decide, by decide⟩

/-- C2 (amended): for a name cachedContents/id where the id does not
itself contain the substring cachedContents/, the path segment appended
by get, update and delete equals the id; a bare name passes through
unchanged; an empty name raises the generic error before any request. -/
theorem cache_name_path_normalization (id name : String)
    (ps : GoogleAICacheManager.CachedContentUpdateParams) :
    (hasOccur cachedContentsSep id.data = false →
      parseCacheName ("cachedContents/" ++ id) = Except.ok id) ∧
    (cachedContentsSep.isPrefixOf name.data = false → name ≠ "" →
      parseCacheName name = Except.ok name) ∧
    (∀ seg, parseCacheName name = Except.ok seg →
      (GoogleAICacheManager.get name).map (fun r => r.url.pathSegs) =
        Except.ok [seg] ∧
      (GoogleAICacheManager.update name ps).map (fun r => r.url.pathSegs) =
        Except.ok [seg] ∧
      (GoogleAICacheManager.delete name).map (fun r => r.url.pathSegs) =
        Except.ok [seg]) ∧
    (GoogleAICacheManager.get "" = Except.error (GError.genericError
        "Invalid cache name. Must be 'cachedContents/name' or 'name'.") ∧
      GoogleAICacheManager.update "" ps = Except.error (GError.genericError
        "Invalid cache name. Must be 'cachedContents/name' or 'name'.") ∧
      GoogleAICacheManager.delete "" = Except.error (GError.genericError
        "Invalid cache name. Must be 'cachedContents/name' or 'name'.")) := by
  refine ⟨?_, ?_, ?_, rfl, rfl, rfl⟩
  · intro hocc
    have hne : ("cachedContents/" ++ id) ≠ "" := by
      intro hemp
      rw [String.ext_iff, String.data_append] at hemp
      have hlen : ("cachedContents/".data ++ id.data).length = 0 := by
        rw [hemp]; rfl
      have h15 : "cachedContents/".data.length = 15 := rfl
      rw [List.length_append, h15] at hlen
      omega
    have hpre :
        cachedContentsSep.isPrefixOf ("cachedContents/" ++ id).data = true := by
      rw [String.data_append, List.isPrefixOf_iff_prefix]
      exact List.prefix_append _ _
    have hdrop : ("cachedContents/" ++ id).data.drop cachedContentsSep.length =
        id.data := by
      rw [String.data_append]
      exact List.drop_left _ _
    unfold parseCacheName
    rw [if_neg hne, if_pos hpre, hdrop, takeUntilSep_eq_self _ _ hocc]
  · intro hp hne
    unfold parseCacheName
    rw [if_neg hne, if_neg (by simp [hp])]
  · intro seg hseg
    unfold GoogleAICacheManager.get GoogleAICacheManager.update
      GoogleAICacheManager.delete
    rw [hseg]
    refine ⟨rfl, ?_, rfl⟩
    cases hmk : ps.updateMask with
    | some mask => rfl
    | none => rfl

/-- Witness for C2: the amended theorem applied at id abc123 and the
bare name xyz. -/
theorem cache_name_path_normalization_witness :
    hasOccur cachedContentsSep ("abc123" : String).data = false ∧
    parseCacheName ("cachedContents/" ++ "abc123") = Except.ok "abc123" ∧
    cachedContentsSep.isPrefixOf ("xyz" : String).data = false ∧
    parseCacheName "xyz" = Except.ok "xyz" ∧
    (GoogleAICacheManager.get "xyz").map (fun r => r.url.pathSegs) =
      Except.ok [["xyz"]].flatten :=
  ⟨by decide,
    (cache_name_path_normalization "abc123" "xyz" { cachedContent := {} }).1
      (by decide),
    by decide,
    (cache_name_path_normalization "abc123" "xyz"
      { cachedContent := {} }).2.1 (by decide) (by decide),
    ((cache_name_path_normalization "abc123" "xyz"
      { cachedContent := {} }).2.2.1 "xyz" (by decide)).1⟩

/-- Writing through one address leaves every other address unchanged. -/
theorem heapSet_getElem_ne (h : Heap) (i j : Nat) (v : CachedContentParams)
    (hne : i ≠ j) : (heapSet h i v)[j]? = h[j]? :=
  List.getElem?_set_ne hne

/-- `createTail` writes only to the fresh object at `newRef`. -/
theorem createTail_preserves (h : Heap) (newRef r : Nat) (hne : r ≠ newRef) :
    (createTail h newRef).1[r]? = h[r]? := by
  unfold createTail
  cases hm : h[newRef]? with
  | none => rfl
  | some ncc =>
    dsimp only
    by_cases hmod : (!truthyStr ncc.model) = true
    · rw [if_pos hmod]
    · rw [if_neg hmod]
      by_cases hsl : ((ncc.model.getD "").data.contains '/') = true
      · rw [if_pos hsl]
        cases hm2 : h[newRef]? <;> rfl
      · rw [if_neg hsl]
        have hset : (heapSet h newRef
            { ncc with model := some ("models/" ++ ncc.model.getD "") })[r]? =
            h[r]? := heapSet_getElem_ne h newRef r _ (Ne.symm hne)
        cases hm2 : (heapSet h newRef
            { ncc with model := some ("models/" ++ ncc.model.getD "") })[newRef]?
        · exact hset
        · exact hset

/-- `createOnHeap` never writes to the caller's address. -/
theorem createOnHeap_preserves (h : Heap) (r : Nat)
    (opts : CachedContentParams) (hr : h[r]? = some opts) :
    (createOnHeap h r).1[r]? = some opts := by
  have hlt : r < h.length := by
    by_contra hge
    rw [List.getElem?_eq_none (Nat.le_of_not_lt hge)] at hr
    exact Option.noConfusion hr
  have hne : r ≠ h.length := Nat.ne_of_lt hlt
  have happ : (h ++ [opts])[r]? = some opts := by
    rw [List.getElem?_append_left hlt]; exact hr
  unfold createOnHeap
  rw [hr]
  dsimp only
  by_cases ht : truthyNat opts.ttlSeconds = true
  · rw [if_pos ht]
    by_cases he : truthyStr opts.expireTime = true
    · rw [if_pos he]
      exact happ
    · rw [if_neg he]
      rw [createTail_preserves _ _ _ hne, heapSet_getElem_ne _ _ _ _
        (Ne.symm hne), heapSet_getElem_ne _ _ _ _ (Ne.symm hne)]
      exact happ
  · rw [if_neg ht]
    rw [createTail_preserves _ _ _ hne]
    exact happ

/-- `updateOnHeap` never writes to the caller's address. -/
theorem updateOnHeap_preserves (h : Heap) (name : String) (r : Nat)
    (mask : Option (List String)) (opts : CachedContentParams)
    (hr : h[r]? = some opts) :
    (updateOnHeap h name r mask).1[r]? = some opts := by
  have hlt : r < h.length := by
    by_contra hge
    rw [List.getElem?_eq_none (Nat.le_of_not_lt hge)] at hr
    exact Option.noConfusion hr
  have hne : r ≠ h.length := Nat.ne_of_lt hlt
  have happ : (h ++ [opts])[r]? = some opts := by
    rw [List.getElem?_append_left hlt]; exact hr
  unfold updateOnHeap
  cases hseg : parseCacheName name with
  | error e => exact hr
  | ok seg =>
    rw [hr]
    dsimp only
    by_cases ht : truthyNat opts.ttlSeconds = true
    · rw [if_pos ht]
      rw [heapSet_getElem_ne _ _ _ _ (Ne.symm hne),
        heapSet_getElem_ne _ _ _ _ (Ne.symm hne)]
      exact happ
    · rw [if_neg ht]
      exact happ

/-- C9: it is the shallow copies, at fresh addresses, that create and
update mutate; the caller's object at address r is unchanged whatever
the outcome. -/
theorem create_update_no_caller_mutation (h : Heap) (r : Nat)
    (opts : CachedContentParams) (hr : h[r]? = some opts) :
    (createOnHeap h r).1[r]? = some opts ∧
    ∀ (name : String) (mask : Option (List String)),
      (updateOnHeap h name r mask).1[r]? = some opts :=
  ⟨createOnHeap_preserves h r opts hr,
    fun name mask => updateOnHeap_preserves h name r mask opts hr⟩

/-- Witness for C9: a one-object heap whose object has a truthy
ttlSeconds, so that both methods take the branch that performs the ttl
writes on the copy. -/
theorem create_update_no_caller_mutation_witness :
    ([({ model := some "m", ttlSeconds := some 5 } : CachedContentParams)] :
        Heap)[0]? = some { model := some "m", ttlSeconds := some 5 } ∧
    (createOnHeap [{ model := some "m", ttlSeconds := some 5 }] 0).1[0]? =
      some { model := some "m", ttlSeconds := some 5 } ∧
    (updateOnHeap [{ model := some "m", ttlSeconds := some 5 }] "abc" 0
        none).1[0]? =
      some { model := some "m", ttlSeconds := some 5 } :=
  have key := create_update_no_caller_mutation
    [{ model := some "m", ttlSeconds := some 5 }] 0
    { model := some "m", ttlSeconds := some 5 } (by decide)
  ⟨by decide, key.1, key.2 "abc" none⟩

/-- Witness for C10: the amended theorem applied at ttlSeconds 300 and a
concrete expireTime. -/
theorem update_truthy_ttl_with_expire_no_validation_witness :
    ("abc" : String) ≠ "" ∧
    ({ cachedContent := { ttlSeconds := some 300, expireTime := some "2024-12-31T12:00:00Z" } } : GoogleAICacheManager.CachedContentUpdateParams).cachedContent.ttlSeconds = some 300 ∧
    (300 : Nat) ≠ 0 ∧
    ({ cachedContent := { ttlSeconds := some 300, expireTime := some "2024-12-31T12:00:00Z" } } : GoogleAICacheManager.CachedContentUpdateParams).cachedContent.expireTime = some "2024-12-31T12:00:00Z" ∧
    ∃ req body, GoogleAICacheManager.update "abc"
        { cachedContent := { ttlSeconds := some 300, expireTime := some "2024-12-31T12:00:00Z" } } = Except.ok req ∧
      req.body = some body ∧
      body.ttl = some (toString (300 : Nat) ++ "s") ∧
      body.ttlSeconds = none ∧
      body.expireTime = some "2024-12-31T12:00:00Z" :=
  ⟨by decide, rfl, by decide, rfl,
    update_truthy_ttl_with_expire_no_validation "abc"
      { cachedContent := { ttlSeconds := some 300, expireTime := some "2024-12-31T12:00:00Z" } }
      300 "2024-12-31T12:00:00Z" (by decide) rfl (by decide) rfl⟩

/-!
Coherence of the heap model with the value-level embedding: on a valid
address, the request or error computed by the heap-level methods is the
one computed by the value-level methods on the stored object. This ties
the frame theorems to the same code as the functional theorems.
-/

/-- `createTail` computes the same outcome as `createRest` on the object
stored at `nr`. -/
theorem createTail_result (h : Heap) (nr : Nat) (ncc : CachedContentParams)
    (hm : h[nr]? = some ncc) :
    (createTail h nr).2 = GoogleAICacheManager.createRest ncc := by
  unfold createTail GoogleAICacheManager.createRest
  rw [hm]
  dsimp only
  by_cases hmod : (!truthyStr ncc.model) = true
  · rw [if_pos hmod, if_pos hmod]
  · rw [if_neg hmod, if_neg hmod]
    by_cases hsl : ((ncc.model.getD "").data.contains '/') = true
    · rw [if_pos hsl, if_pos hsl, hm]
    · rw [if_neg hsl, if_neg hsl]
      have hlt : nr < h.length := by
        by_contra hge
        rw [List.getElem?_eq_none (Nat.le_of_not_lt hge)] at hm
        exact Option.noConfusion hm
      simp only [heapSet]
      rw [List.getElem?_set_self hlt]

/-- `createOnHeap` computes the same outcome as `create` on the object
stored at `r`. -/
theorem createOnHeap_result (h : Heap) (r : Nat)
    (opts : CachedContentParams) (hr : h[r]? = some opts) :
    (createOnHeap h r).2 = GoogleAICacheManager.create opts := by
  unfold createOnHeap GoogleAICacheManager.create
  rw [hr]
  dsimp only
  by_cases ht : truthyNat opts.ttlSeconds = true
  · rw [if_pos ht, if_pos ht]
    by_cases he : truthyStr opts.expireTime = true
    · rw [if_pos he, if_pos he]
    · rw [if_neg he, if_neg he]
      refine createTail_result _ _ _ ?_
      have hlt : h.length <
          ((h ++ [opts]).set h.length
            { opts with ttl := some (toString (opts.ttlSeconds.getD 0) ++ "s")
            }).length := by
        simp
      simp only [heapSet]
      rw [List.getElem?_set_self hlt]
  · rw [if_neg ht, if_neg ht]
    refine createTail_result _ _ _ ?_
    exact List.getElem?_concat_length h opts

/-- `updateOnHeap` computes the same outcome as `update` on the object
stored at `r`. -/
theorem updateOnHeap_result (h : Heap) (name : String) (r : Nat)
    (mask : Option (List String)) (cc : CachedContentParams)
    (hr : h[r]? = some cc) :
    (updateOnHeap h name r mask).2 = GoogleAICacheManager.update name
      { cachedContent := cc, updateMask := mask } := by
  unfold updateOnHeap GoogleAICacheManager.update
  cases hseg : parseCacheName name with
  | error e => rfl
  | ok seg =>
    rw [hr]
